import Mathlib

/-!
Verification of the geo-notebooks pipeline: a shallow embedding of the
STAC-item handling code of the two notebooks (odc-planetary-computer and
odc-landsat), with theorems about the item normalizer
(items_to_geodataframe), the asset href rewrite loop, the ndvi ratio
index, and the virtual cube loader contract.
-/

namespace GeoNb

/-- Timezone-aware or naive timestamp; the timezone offset (in minutes east of
UTC) is present exactly when the source string carried a timezone designator. -/
structure Timestamp where
  year : Nat
  month : Nat
  day : Nat
  hour : Nat
  minute : Nat
  second : Nat
  tzOffsetMinutes : Option Int
deriving DecidableEq

/-- JSON-like values: the shape of raw STAC item records, plus the two
non-JSON cell values the pipeline creates inside a table (a parsed shapely
geometry and a parsed pandas timestamp). -/
inductive JVal : Type where
  | null
  | bool (b : Bool)
  | num (n : Int)
  | str (s : String)
  | dt (ts : Timestamp)
  | geom (gtype : String) (coords : JVal)
  | arr (elems : List JVal)
  | obj (fields : List (String × JVal))

/-- A flattened record: dotted-path column names paired with cell values. -/
abbrev Row := List (String × JVal)

/-- Lookup in a Python-dict-like association list (first match). -/
def assocGet {β : Type} (k : String) : List (String × β) → Option β
  | [] => none
  | (k2, v) :: rest => if k2 = k then some v else assocGet k rest

/-- Assignment into a Python-dict-like association list: overwrite the first
entry with the key in place, or append a new entry, matching dict insertion
order semantics. -/
def setField {β : Type} (r : List (String × β)) (k : String) (v : β) : List (String × β) :=
  match r with
  | [] => [(k, v)]
  | (k2, v2) :: rest => if k2 = k then (k, v) :: rest else (k2, v2) :: setField rest k v

/-- Removal of a column key, as pandas set_index drops the chosen column. -/
def eraseKey {β : Type} (k : String) : List (String × β) → List (String × β)
  | [] => []
  | (k2, v2) :: rest => if k2 = k then rest else (k2, v2) :: eraseKey k rest

/-- Error-propagating map over a list, mirroring a Python loop that raises on
the first failing element. -/
def mapE {α β : Type} (f : α → Except String β) : List α → Except String (List β)
  | [] => .ok []
  | x :: xs =>
    match f x with
    | .error e => .error e
    | .ok y =>
      match mapE f xs with
      | .error e => .error e
      | .ok ys => .ok (y :: ys)

/-! Character-level string toolkit, used to model the Python and pandas
string operations by structural recursion. -/

/-- Split a character list at every occurrence of the separator character. -/
def splitChar (sep : Char) : List Char → List (List Char)
  | [] => [[]]
  | c :: cs =>
    let r := splitChar sep cs
    if c = sep then [] :: r
    else
      match r with
      | h :: t => (c :: h) :: t
      | [] => [[c]]

/-- Numeric value of a decimal digit character. -/
def digitVal (c : Char) : Option Nat :=
  if c.isDigit then some (c.toNat - 48) else none

def digitsToNatAux : List Char → Nat → Option Nat
  | [], acc => some acc
  | c :: cs, acc =>
    match digitVal c with
    | some d => digitsToNatAux cs (acc * 10 + d)
    | none => none

/-- Parse a nonempty all-digit character list as a natural number. -/
def digitsToNat (l : List Char) : Option Nat :=
  match l with
  | [] => none
  | _ => digitsToNatAux l 0

/-- Whether a character list ends with the UTC designator Z. -/
def endsWithZ (l : List Char) : Bool :=
  match l.getLast? with
  | some c => c = 'Z'
  | none => false

/-- Parse a YYYY-MM-DD date part. -/
def parseDate3 (l : List Char) : Option (Nat × Nat × Nat) :=
  match splitChar ('-') l with
  | [y, m, d] =>
    match digitsToNat y, digitsToNat m, digitsToNat d with
    | some yn, some mn, some dn =>
      if 1 ≤ mn ∧ mn ≤ 12 ∧ 1 ≤ dn ∧ dn ≤ 31 then some (yn, mn, dn) else none
    | _, _, _ => none
  | _ => none

/-- Keep the whole-second digits of a seconds field, dropping a fraction. -/
def secondsWhole (l : List Char) : List Char :=
  match splitChar ('.') l with
  | w :: _ => w
  | [] => []

/-- Parse an HH:MM:SS (optionally fractional) or HH:MM time-of-day part. -/
def parseHMS (l : List Char) : Option (Nat × Nat × Nat) :=
  match splitChar (':') l with
  | [h, m, s] =>
    match digitsToNat h, digitsToNat m, digitsToNat (secondsWhole s) with
    | some hn, some mn, some sn =>
      if hn ≤ 23 ∧ mn ≤ 59 ∧ sn ≤ 60 then some (hn, mn, sn) else none
    | _, _, _ => none
  | [h, m] =>
    match digitsToNat h, digitsToNat m with
    | some hn, some mn => if hn ≤ 23 ∧ mn ≤ 59 then some (hn, mn, 0) else none
    | _, _ => none
  | _ => none

/-- Parse an HH:MM timezone offset as minutes. -/
def parseOffsetMin (l : List Char) : Option Nat :=
  match splitChar (':') l with
  | [h, m] =>
    match digitsToNat h, digitsToNat m with
    | some hn, some mn => if hn ≤ 23 ∧ mn ≤ 59 then some (hn * 60 + mn) else none
    | _, _ => none
  | _ => none

/-- Parse the time-of-day part together with an optional timezone designator:
a trailing Z, a +HH:MM or -HH:MM offset, or none (a naive time). -/
def parseTimePart (l : List Char) : Option (Nat × Nat × Nat × Option Int) :=
  if endsWithZ l then
    (parseHMS l.dropLast).map (fun t => (t.1, t.2.1, t.2.2, some 0))
  else
    match splitChar ('+') l with
    | [t, off] => do
      let h ← parseHMS t
      let o ← parseOffsetMin off
      some (h.1, h.2.1, h.2.2, some (Int.ofNat o))
    | [t] =>
      match splitChar ('-') t with
      | [t2, off] => do
        let h ← parseHMS t2
        let o ← parseOffsetMin off
        some (h.1, h.2.1, h.2.2, some (-(Int.ofNat o)))
      | [t2] => (parseHMS t2).map (fun h => (h.1, h.2.1, h.2.2, none))
      | _ => none
    | _ => none

/-- Models the pandas timestamp string parser on ISO-8601-style inputs: a bare
date parses to a naive midnight timestamp; a date-time parses with a timezone
offset exactly when the string carries a designator. -/
def parseTimestamp (s : String) : Option Timestamp :=
  match splitChar ('T') s.toList with
  | [d] => (parseDate3 d).map (fun x => ⟨x.1, x.2.1, x.2.2, 0, 0, 0, none⟩)
  | [d, t] => do
    let dd ← parseDate3 d
    let tt ← parseTimePart t
    some ⟨dd.1, dd.2.1, dd.2.2, tt.1, tt.2.1, tt.2.2.1, tt.2.2.2⟩
  | _ => none

/-- Whether a cell value is a timezone-aware timestamp. -/
def JVal.tzAware : JVal → Bool
  | .dt ts => ts.tzOffsetMinutes.isSome
  | _ => false

/-- Models the Python str.replace method at the character level: every
occurrence of a nonempty pattern is replaced, scanning left to right. The
fuel argument only needs to be at least the input length. -/
def dropPre? : List Char → List Char → Option (List Char)
  | [], l => some l
  | _ :: _, [] => none
  | p :: ps, c :: cs => if c = p then dropPre? ps cs else none

def replaceFuel (pat rep : List Char) : Nat → List Char → List Char
  | _, [] => []
  | 0, l => l
  | n + 1, c :: cs =>
    match pat with
    | [] => c :: cs
    | _ :: _ =>
      match dropPre? pat (c :: cs) with
      | some rest => rep ++ replaceFuel pat rep n rest
      | none => c :: replaceFuel pat rep n cs

/-- Models the Python str.replace method. -/
def strReplace (s pat rep : String) : String :=
  ⟨replaceFuel pat.toList rep.toList s.toList.length s.toList⟩

/-- Whether the pattern occurs as a contiguous sublist. -/
def subOccurs (pat : List Char) : List Char → Bool
  | [] => pat.isEmpty
  | c :: cs => (dropPre? pat (c :: cs)).isSome || subOccurs pat cs

/-- Models the Python substring test of the in operator on strings. -/
def strContainsSub (s pat : String) : Bool :=
  subOccurs pat.toList s.toList

/-! The item normalizer items_to_geodataframe, defined identically in both
notebooks, and the pandas and shapely operations it calls. -/

/-- Models copy.deepcopy in the value model: the copy is a fresh value equal
to the original, so later writes to the copy leave the original unchanged. -/
def deepcopy (v : JVal) : JVal := v

/-- Models shapely.geometry.shape on a GeoJSON-style mapping: a mapping with
a string type member and a coordinates member yields a parsed geometry
object; anything else raises. -/
def shape (v : JVal) : Except String JVal :=
  match v with
  | .obj fields =>
    match assocGet ("type") fields, assocGet ("coordinates") fields with
    | some (.str t), some c => .ok (.geom t c)
    | _, _ => .error ("shapely: unsupported geometry mapping")
  | _ => .error ("shapely: object is not a geometry mapping")

/-- One iteration of the items_to_geodataframe loop body: deep-copy the item,
replace the geometry member of the copy by the parsed shapely geometry, and
return the appended copy together with the post-loop value of the input
element, which is untouched because the write went to the copy. -/
def normLoopStep (i : JVal) : Except String (JVal × JVal) :=
  match deepcopy i with
  | .obj fields =>
    match assocGet ("geometry") fields with
    | some g =>
      match shape g with
      | .ok geo => .ok (.obj (setField fields ("geometry") geo), i)
      | .error e => .error e
    | none => .error ("KeyError: geometry")
  | _ => .error ("TypeError: item is not a mapping")

mutual
/-- Flattening of one value under a dotted path, as pandas json_normalize
does: nested mappings recurse with dotted keys, everything else is a cell. -/
def flattenField (key : String) (v : JVal) : Row :=
  match v with
  | .obj fields => flattenObj key fields
  | _ => [(key, v)]

def flattenObj (key : String) : List (String × JVal) → Row
  | [] => []
  | (k, v) :: rest => flattenField (key ++ "." ++ k) v ++ flattenObj key rest
end

/-- Flattening of the top-level members of a record (no path so far). -/
def topFlatten : List (String × JVal) → Row
  | [] => []
  | (k, v) :: rest => flattenField k v ++ topFlatten rest

/-- Models pandas json_normalize on one record: mappings flatten to a row of
dotted-path columns, anything else raises. -/
def normalizeRecord : JVal → Except String Row
  | .obj fields => .ok (topFlatten fields)
  | _ => .error ("AttributeError: json normalize expects mappings")

/-- A pandas DataFrame as built by json_normalize: one flattened row per
record; the column set is derived from the rows. -/
structure DataFrame where
  rows : List Row

/-- Accumulate column names in order of first appearance. -/
def addKeys : List String → List String → List String
  | acc, [] => acc
  | acc, k :: rest => addKeys (if k ∈ acc then acc else acc ++ [k]) rest

def colsOf : List String → List Row → List String
  | acc, [] => acc
  | acc, r :: rest => colsOf (addKeys acc (r.map Prod.fst)) rest

/-- The column names of the table: the union of the row keys in order of
first appearance, as pandas builds them. -/
def DataFrame.columns (df : DataFrame) : List String :=
  colsOf [] df.rows

/-- Models pandas to_datetime on one cell: strings must parse to a
timestamp, missing values stay missing, timestamps pass through, anything
else raises. -/
def toDatetimeCell : JVal → Except String JVal
  | .str s =>
    match parseTimestamp s with
    | some ts => .ok (.dt ts)
    | none => .error ("to_datetime: could not parse " ++ s)
  | .null => .ok .null
  | .dt ts => .ok (.dt ts)
  | _ => .error ("to_datetime: unsupported cell")

/-- Conversion of the cell of one row under one column, leaving rows that
lack the column untouched (their value is missing, and stays missing). -/
def toDatetimeRow (field : String) (r : Row) : Except String Row :=
  match assocGet field r with
  | none => .ok r
  | some v =>
    match toDatetimeCell v with
    | .ok w => .ok (setField r field w)
    | .error e => .error e

/-- Models the column assignment gdf. field = pd.to_datetime of gdf. field. -/
def toDatetimeColumn (df : DataFrame) (field : String) : Except String DataFrame :=
  match mapE (toDatetimeRow field) df.rows with
  | .ok rows2 => .ok ⟨rows2⟩
  | .error e => .error e

/-- The designated timestamp columns of the normalizer, in source order. -/
def dtField : String := "properties.datetime"
def crField : String := "properties.created"
def upField : String := "properties.updated"
def tsFields : List String := [dtField, crField, upField]

/-- The for-loop of the normalizer: for each designated field, if the column
is present in the table, convert it with to_datetime, otherwise skip it. -/
def applyDatetimeFields (df : DataFrame) : List String → Except String DataFrame
  | [] => .ok df
  | f :: rest =>
    if f ∈ df.columns then
      match toDatetimeColumn df f with
      | .ok df2 => applyDatetimeFields df2 rest
      | .error e => .error e
    else applyDatetimeFields df rest

/-- The Footprint Table: a table indexed by the values of the column chosen
by set_index, which is dropped from the remaining columns. -/
structure GeoDataFrame where
  index : List JVal
  rows : List Row

/-- Models pandas set_index with inplace update: the chosen column must be
present, its cells become the index (missing cells become missing index
entries), and the column is dropped; a missing column raises KeyError. -/
def setIndex (df : DataFrame) (c : String) : Except String GeoDataFrame :=
  if c ∈ df.columns then
    .ok ⟨df.rows.map (fun r => (assocGet c r).getD JVal.null),
         df.rows.map (fun r => eraseKey c r)⟩
  else .error ("KeyError: " ++ c)

/-- The items_to_geodataframe function of both notebooks, in state-passing
form: the first component is the returned table, the second is the post-call
state of the input item list (unchanged, because the loop deep-copies). -/
def items_to_geodataframe_st (items : List JVal) : Except String (GeoDataFrame × List JVal) :=
  match mapE normLoopStep items with
  | .error e => .error e
  | .ok pairs =>
    match mapE normalizeRecord (pairs.map Prod.fst) with
    | .error e => .error e
    | .ok rows =>
      match applyDatetimeFields ⟨rows⟩ tsFields with
      | .error e => .error e
      | .ok df =>
        match setIndex df dtField with
        | .error e => .error e
        | .ok gdf => .ok (gdf, pairs.map Prod.snd)

/-- The items_to_geodataframe function of both notebooks: convert a list of
raw STAC item records into a Footprint Table. -/
def items_to_geodataframe (items : List JVal) : Except String GeoDataFrame :=
  match items_to_geodataframe_st items with
  | .ok p => .ok p.1
  | .error e => .error e

/-- Whether a call returned a value rather than raising. -/
def exceptIsOk {α : Type} : Except String α → Bool
  | .ok _ => true
  | .error _ => false

/-! The asset href rewrite loop of the landsat notebook:
for every item and every asset name, if an s3 alternate entry is present the
asset href is overwritten with the alternate href, and then every occurrence
of usgs-landsat-ard in the href is replaced by usgs-landsat. The loop writes
into the item records themselves. -/

/-- Models the Python membership operator as used by the rewrite loop: key
membership on mappings, substring test on strings; other receivers raise. -/
def pyContains (container : JVal) (key : String) : Except String Bool :=
  match container with
  | .obj fields => .ok (decide (key ∈ fields.map Prod.fst))
  | .str s => .ok (strContainsSub s key)
  | .arr _ => .error ("TypeError: list membership not modelled")
  | _ => .error ("TypeError: argument is not a container")

/-- The first statement of the rewrite loop body: when an s3 alternate entry
is present, overwrite the asset href with the alternate href. Lookups the
Python code would fail on raise the analogous error. -/
def rewriteAlt (fields : Row) : Except String Row :=
  match assocGet ("alternate") fields with
  | none => .ok fields
  | some alt =>
    match pyContains alt ("s3") with
    | .error e => .error e
    | .ok false => .ok fields
    | .ok true =>
      match alt with
      | .obj altFields =>
        match assocGet ("s3") altFields with
        | some (.obj s3Fields) =>
          match assocGet ("href") s3Fields with
          | some v => .ok (setField fields ("href") v)
          | none => .error ("KeyError: href")
        | some _ => .error ("TypeError: s3 alternate is not a mapping")
        | none => .error ("KeyError: s3")
      | _ => .error ("TypeError: alternate is not a mapping")

/-- The body of the rewrite loop for one asset descriptor: the optional
alternate overwrite, then the unconditional replacement of usgs-landsat-ard
by usgs-landsat in the asset href. -/
def rewriteAsset (asset : JVal) : Except String JVal :=
  match asset with
  | .obj fields =>
    match rewriteAlt fields with
    | .error e => .error e
    | .ok fields2 =>
      match assocGet ("href") fields2 with
      | some (.str h) =>
        .ok (.obj (setField fields2 ("href") (.str (strReplace h ("usgs-landsat-ard") ("usgs-landsat")))))
      | some _ => .error ("AttributeError: href value has no replace method")
      | none => .error ("KeyError: href")
  | _ => .error ("TypeError: asset is not a mapping")

/-- The inner rewrite loop over the asset mapping of one item. -/
def rewriteAssets : List (String × JVal) → Except String (List (String × JVal))
  | [] => .ok []
  | (name, a) :: rest =>
    match rewriteAsset a with
    | .error e => .error e
    | .ok a2 =>
      match rewriteAssets rest with
      | .error e => .error e
      | .ok rest2 => .ok ((name, a2) :: rest2)

/-- One iteration of the outer rewrite loop: the asset mapping of the item
is rewritten; the returned value is the post-loop state of the item record,
which the Python loop updates in place. -/
def rewriteItem (item : JVal) : Except String JVal :=
  match item with
  | .obj fields =>
    match assocGet ("assets") fields with
    | some (.obj assets) =>
      match rewriteAssets assets with
      | .error e => .error e
      | .ok assets2 => .ok (.obj (setField fields ("assets") (.obj assets2)))
    | some _ => .error ("TypeError: assets is not a mapping")
    | none => .error ("KeyError: assets")
  | _ => .error ("TypeError: item is not a mapping")

/-- The whole rewrite loop over the fetched items; the result is the
post-loop state of the items list, mutated in place by the Python code. -/
def rewriteItems : List JVal → Except String (List JVal) :=
  mapE rewriteItem

/-! The ndvi calculation of both notebooks:
(nir - red) / (nir + red) clipped to the range 0 to 1, elementwise over two
band arrays. The cubes are loaded as uint16 arrays (the stac_cfg of the
notebooks sets data_type uint16 with nodata 0), so the subtraction and the
addition are numpy uint16 arithmetic and wrap modulo 2 to the 16th before
the float true division; the division result is a float64, modelled exactly
as a rational extended with nan and signed infinity following the numpy
special-value rules (warn, not raise, on division by zero). -/

/-- A float64 result value, exactly: nan, a signed infinity, or a finite
value kept as an exact rational. -/
inductive FP : Type where
  | nan
  | inf (positive : Bool)
  | val (q : ℚ)
deriving DecidableEq

/-- numpy uint16 subtraction on cell values below 2 to the 16th: the
difference wraps modulo 65536. -/
def u16sub (a b : Nat) : Nat := (a + 65536 - b) % 65536

/-- numpy uint16 addition on cell values below 2 to the 16th: the sum wraps
modulo 65536. -/
def u16add (a b : Nat) : Nat := (a + b) % 65536

/-- numpy true division of two nonnegative integer cells into float64: zero
over zero is nan, a nonzero numerator over zero is positive infinity, and
otherwise the exact ratio. -/
def natFdiv (x y : Nat) : FP :=
  if y = 0 then (if x = 0 then .nan else .inf true) else .val ((x : ℚ) / (y : ℚ))

/-- Models numpy clip on one cell: nan propagates, infinities saturate. -/
def FP.clip (lo hi : ℚ) : FP → FP
  | .nan => .nan
  | .inf s => if s then .val hi else .val lo
  | .val q => .val (min hi (max lo q))

/-- The ndvi datacube expression of both notebooks over two uint16 band
arrays: wrapped difference over wrapped sum, divided into float64, clipped
to the unit range. -/
def ndvi (nir red : List Nat) : List FP :=
  (List.zipWith natFdiv (List.zipWith u16sub nir red) (List.zipWith u16add nir red)).map
    (FP.clip 0 1)

/-! The Virtual Cube Loader. The stac_load call the notebooks make is
implemented by the external odc-stac library, whose code is not part of this
repository, so the loader is modelled from the spec. -/

/-- Modelled from the spec: the inputs of the Virtual Cube Loader that its
contract depends on. One normalized item: acquisition time (seconds since
epoch, UTC), scene center longitude in degrees, and the asset mapping from
band name to href. -/
structure StacItem where
  timeUTC : Int
  lonDeg : Int
  assets : List (String × String)

/-- Modelled from the spec: the local solar calendar day of an acquisition,
the UTC time shifted by 240 seconds per degree of longitude, in days. -/
def solarDay (it : StacItem) : Int :=
  (it.timeUTC + it.lonDeg * 240).fdiv 86400

/-- Append an item to the group carrying its key, or open a new group. -/
def addToGroups (gs : List (Int × List StacItem)) (d : Int) (it : StacItem) :
    List (Int × List StacItem) :=
  match gs with
  | [] => [(d, [it])]
  | (d2, xs) :: rest =>
    if d2 = d then (d2, xs ++ [it]) :: rest else (d2, xs) :: addToGroups rest d it

/-- Group items by an integer key, one group per distinct key value. -/
def groupByKey (key : StacItem → Int) (items : List StacItem) :
    List (Int × List StacItem) :=
  items.foldl (fun gs it => addToGroups gs (key it) it) []

/-- Modelled from the spec: a Virtual Cube is a lazy handle holding the band
selection and the grouped time axis; no remote data is attached. -/
structure VirtualCube where
  bands : List String
  timeGroups : List (Int × List StacItem)

/-- Whether some item resolves the band name in its asset mapping. -/
def resolvable (items : List StacItem) (b : String) : Bool :=
  items.any (fun it => (assocGet b it.assets).isSome)

/-- Modelled from the spec: the Virtual Cube Loader (the stac_load call of
the notebooks, implemented by the external odc-stac library). It fails fast
on an empty item set or on a band name absent from every item asset mapping;
with solar-day grouping on, items acquired on the same local solar calendar
day merge into one time slice, otherwise there is one slice per distinct
acquisition time. No remote access happens here. -/
def stac_load (items : List StacItem) (bands : List String) (groupbySolarDay : Bool) :
    Except String VirtualCube :=
  if items.isEmpty then .error ("stac_load: empty item collection")
  else
    match bands.find? (fun b => !(resolvable items b)) with
    | some b => .error ("stac_load: band " ++ b ++ " not found in any item assets")
    | none =>
      .ok ⟨bands,
        if groupbySolarDay then groupByKey solarDay items
        else groupByKey (fun it => it.timeUTC) items⟩

/-- Modelled from the spec: the log of remote URL accesses used to observe
that construction is lazy. -/
structure NetTrace where
  accessed : List String

/-- Modelled from the spec: the loader interposed with the URL access log;
construction builds only the local handle, so the log passes through. -/
def stac_load_traced (items : List StacItem) (bands : List String)
    (groupbySolarDay : Bool) (t : NetTrace) :
    Except String VirtualCube × NetTrace :=
  (stac_load items bands groupbySolarDay, t)

/-- The remote chunk references a cube would fetch when materialized. -/
def VirtualCube.tileRefs (c : VirtualCube) : List String :=
  c.timeGroups.flatMap (fun g => g.2.flatMap (fun it => c.bands.filterMap (fun b => assocGet b it.assets)))

/-- Modelled from the spec: the Execution Trigger materializing a cube,
fetching every referenced remote chunk and logging each URL access. -/
def materializeCube (c : VirtualCube) (t : NetTrace) : List String × NetTrace :=
  (c.tileRefs, ⟨t.accessed ++ c.tileRefs⟩)

/-! Support definitions for the statements below. -/

/-- The row-level effect of converting one column: keys are unchanged, other
columns are unchanged, and a parseable string cell of the column becomes the
parsed timestamp. -/
def ColRel (field : String) (r r2 : Row) : Prop :=
  r2.map Prod.fst = r.map Prod.fst ∧
  (∀ k, k ≠ field → assocGet k r2 = assocGet k r) ∧
  (∀ s ts, assocGet field r = some (.str s) → parseTimestamp s = some ts →
    assocGet field r2 = some (.dt ts))

/-- The post-call state of the item list argument of the normalizer. Writes
inside the loop go to deep copies, so the list state is carried through
unchanged even when the call raises partway. -/
def items_to_geodataframe_post (items : List JVal) : List JVal :=
  match items_to_geodataframe_st items with
  | .ok p => p.2
  | .error _ => items

/-- Read the href string of one named asset of an item record. -/
def itemAssetHrefStr (v : JVal) (a : String) : Option String :=
  match v with
  | .obj fields =>
    match assocGet ("assets") fields with
    | some (.obj assets) =>
      match assocGet a assets with
      | some (.obj af) =>
        match assocGet ("href") af with
        | some (.str h) => some h
        | _ => none
      | _ => none
    | _ => none
  | _ => none

/-- The href of the named asset of the first record after the rewrite loop
ran over the list, when it ran without raising. -/
def postRewriteHref (items : List JVal) (a : String) : Option String :=
  match rewriteItems items with
  | .ok (x :: _) => itemAssetHrefStr x a
  | _ => none

/-- Whether every index entry of a returned table is timezone aware; an
error counts as vacuously aware. -/
def indexAllTzAware (e : Except String GeoDataFrame) : Bool :=
  match e with
  | .ok g => g.index.all JVal.tzAware
  | .error _ => true

/-- A well-formed Sentinel-style record: geometry plus a UTC acquisition
timestamp, the shape the notebooks fetch from the catalogs. -/
def demoItemZ : JVal := .obj
  [("geometry", .obj [("type", .str ("Polygon")), ("coordinates", .arr [.num 0, .num 1])]),
   ("properties", .obj [("datetime", .str ("2022-01-01T00:00:00Z"))])]

/-- A record whose acquisition time string parses but carries no timezone
designator. -/
def demoItemNaive : JVal := .obj
  [("geometry", .obj [("type", .str ("Point")), ("coordinates", .arr [.num 0, .num 0])]),
   ("properties", .obj [("datetime", .str ("2022-01-01"))])]

/-- A record with a creation timestamp but no acquisition timestamp. -/
def demoItemNoDt : JVal := .obj
  [("geometry", .obj [("type", .str ("Point")), ("coordinates", .arr [.num 0, .num 0])]),
   ("properties", .obj [("created", .str ("2022-01-01T00:00:00Z"))])]

/-- A landsat-style record with an s3 alternate href and an ard bucket
reference, as consumed by the rewrite loop. -/
def c4item : JVal := .obj
  [("assets", .obj
    [("red", .obj
      [("href", .str ("https://landsatlook.usgs.gov/data/x.tif")),
       ("alternate", .obj [("s3", .obj [("href", .str ("s3://usgs-landsat-ard/data/x.tif"))])])]),
     ("thumb", .obj [("href", .str ("https://usgs-landsat-ard/t.jpg"))])])]

/-- Three acquisitions at one location: two on one local solar calendar day
and one on the next. -/
def demoIt1 : StacItem := ⟨0, 0, [("red", "s3://b/1")]⟩
def demoIt2 : StacItem := ⟨3600, 0, [("red", "s3://b/2")]⟩
def demoIt3 : StacItem := ⟨90000, 0, [("red", "s3://b/3")]⟩

/-- Asset descriptor fields with an s3 alternate entry. -/
def assetAFields : Row :=
  [("href", .str ("https://landsatlook.usgs.gov/x")),
   ("alternate", .obj [("s3", .obj [("href", .str ("s3://usgs-landsat-ard/x"))])]),
   ("type", .str ("image/tiff"))]

/-- Asset descriptor fields without an alternate entry. -/
def assetBFields : Row :=
  [("href", .str ("https://usgs-landsat-ard/t.jpg"))]

/-! Generic lemmas about the error-propagating map. -/

theorem mapE_ok_forall₂ {α β : Type} {f : α → Except String β} :
    ∀ {xs : List α} {ys : List β}, mapE f xs = .ok ys →
      List.Forall₂ (fun x y => f x = .ok y) xs ys := by
  intro xs
  induction xs with
  | nil =>
    intro ys h
    simp only [mapE] at h
    cases h
    exact List.Forall₂.nil
  | cons x xs ih =>
    intro ys h
    simp only [mapE] at h
    cases hx : f x with
    | error e => rw [hx] at h; cases h
    | ok y =>
      rw [hx] at h
      cases hxs : mapE f xs with
      | error e => rw [hxs] at h; cases h
      | ok ys2 =>
        rw [hxs] at h
        cases h
        exact List.Forall₂.cons hx (ih hxs)

theorem mapE_ok_length {α β : Type} {f : α → Except String β} {xs : List α}
    {ys : List β} (h : mapE f xs = .ok ys) : ys.length = xs.length :=
  (mapE_ok_forall₂ h).length_eq.symm

theorem mapE_ok_of_forall {α β : Type} {f : α → Except String β}
    {P : α → β → Prop} :
    ∀ {xs : List α}, (∀ x ∈ xs, ∃ y, f x = .ok y ∧ P x y) →
      ∃ ys, mapE f xs = .ok ys ∧ List.Forall₂ P xs ys := by
  intro xs
  induction xs with
  | nil => intro _; exact ⟨[], rfl, List.Forall₂.nil⟩
  | cons x xs ih =>
    intro h
    obtain ⟨y, hy, hP⟩ := h x (List.mem_cons_self x xs)
    obtain ⟨ys, hys, hF⟩ := ih (fun z hz => h z (List.mem_cons_of_mem x hz))
    refine ⟨y :: ys, ?_, List.Forall₂.cons hP hF⟩
    simp only [mapE, hy, hys]

theorem forall₂_compose {α β γ : Type} {P : α → β → Prop} {Q : β → γ → Prop}
    {R : α → γ → Prop} (h : ∀ a b c, P a b → Q b c → R a c) :
    ∀ {l1 : List α} {l2 : List β} {l3 : List γ},
      List.Forall₂ P l1 l2 → List.Forall₂ Q l2 l3 → List.Forall₂ R l1 l3 := by
  intro l1
  induction l1 with
  | nil =>
    intro l2 l3 h12 h23
    cases h12; cases h23; exact List.Forall₂.nil
  | cons a l1 ih =>
    intro l2 l3 h12 h23
    cases h12 with
    | cons hab h12r =>
      cases h23 with
      | cons hbc h23r => exact List.Forall₂.cons (h a _ _ hab hbc) (ih h12r h23r)

theorem forall₂_mem_right {α β : Type} {P : α → β → Prop} :
    ∀ {l1 : List α} {l2 : List β}, List.Forall₂ P l1 l2 → ∀ {y}, y ∈ l2 →
      ∃ x ∈ l1, P x y := by
  intro l1
  induction l1 with
  | nil => intro l2 h y hy; cases h; cases hy
  | cons a l1 ih =>
    intro l2 h y hy
    cases h with
    | cons hab hr =>
      rcases List.mem_cons.mp hy with hy | hy
      · exact ⟨a, List.mem_cons_self a l1, hy ▸ hab⟩
      · obtain ⟨x, hx, hPx⟩ := ih hr hy
        exact ⟨x, List.mem_cons_of_mem a hx, hPx⟩

theorem forall₂_map_right {α β γ : Type} {Q : α → β → Prop} {P : α → γ → Prop}
    {f : β → γ} (h : ∀ x y, Q x y → P x (f y)) :
    ∀ {l1 : List α} {l2 : List β}, List.Forall₂ Q l1 l2 →
      List.Forall₂ P l1 (l2.map f) := by
  intro l1
  induction l1 with
  | nil => intro l2 hF; cases hF; exact List.Forall₂.nil
  | cons a l1 ih =>
    intro l2 hF
    cases hF with
    | cons hab hr => exact List.Forall₂.cons (h _ _ hab) (ih hr)

/-! Lemmas about the association-list operations. -/

theorem assocGet_setField_self {β : Type} :
    ∀ (r : List (String × β)) (k : String) (v : β),
      assocGet k (setField r k v) = some v := by
  intro r k v
  induction r with
  | nil => simp [setField, assocGet]
  | cons p rest ih =>
    by_cases hk : p.1 = k
    · simp [setField, hk, assocGet]
    · simp [setField, hk, assocGet, ih]

theorem assocGet_setField_ne {β : Type} :
    ∀ (r : List (String × β)) (k k2 : String) (v : β), k2 ≠ k →
      assocGet k2 (setField r k v) = assocGet k2 r := by
  intro r k k2 v hne
  induction r with
  | nil => simp [setField, assocGet, Ne.symm hne]
  | cons p rest ih =>
    by_cases hk : p.1 = k
    · subst hk
      simp [setField, assocGet, Ne.symm hne]
    · simp [setField, hk, assocGet, ih]

theorem setField_keys_of_mem {β : Type} :
    ∀ (r : List (String × β)) (k : String) (v : β), k ∈ r.map Prod.fst →
      (setField r k v).map Prod.fst = r.map Prod.fst := by
  intro r k v hmem
  induction r with
  | nil => cases hmem
  | cons p rest ih =>
    by_cases hk : p.1 = k
    · simp [setField, hk]
    · simp only [List.map_cons, List.mem_cons] at hmem
      rcases hmem with hmem | hmem
      · exact absurd hmem.symm hk
      · simp [setField, hk, ih hmem]

theorem assocGet_isSome_iff {β : Type} :
    ∀ (r : List (String × β)) (k : String),
      (assocGet k r).isSome = true ↔ k ∈ r.map Prod.fst := by
  intro r k
  induction r with
  | nil => simp [assocGet]
  | cons p rest ih =>
    by_cases hk : p.1 = k
    · simp [assocGet, hk]
    · simp [assocGet, hk, ih, Ne.symm hk]

theorem setField_setField {β : Type} :
    ∀ (r : List (String × β)) (k : String) (v w : β),
      setField (setField r k v) k w = setField r k w := by
  intro r k v w
  induction r with
  | nil => simp [setField]
  | cons p rest ih =>
    by_cases hk : p.1 = k
    · simp [setField, hk]
    · simp [setField, hk, ih]

/-! Lemmas about the derived column set. -/

theorem addKeys_mem :
    ∀ (ks : List String) (acc : List String) (c : String),
      c ∈ addKeys acc ks ↔ c ∈ acc ∨ c ∈ ks := by
  intro ks
  induction ks with
  | nil => simp [addKeys]
  | cons k rest ih =>
    intro acc c
    by_cases hk : k ∈ acc
    · simp only [addKeys, if_pos hk, ih, List.mem_cons]
      constructor
      · rintro (h | h)
        · exact Or.inl h
        · exact Or.inr (Or.inr h)
      · rintro (h | h | h)
        · exact Or.inl h
        · exact Or.inl (h ▸ hk)
        · exact Or.inr h
    · simp only [addKeys, if_neg hk, ih, List.mem_append, List.mem_singleton,
        List.mem_cons]
      tauto

theorem colsOf_mem :
    ∀ (rows : List Row) (acc : List String) (c : String),
      c ∈ colsOf acc rows ↔ c ∈ acc ∨ ∃ r ∈ rows, c ∈ r.map Prod.fst := by
  intro rows
  induction rows with
  | nil => simp [colsOf]
  | cons r rest ih =>
    intro acc c
    simp only [colsOf, ih, addKeys_mem, List.mem_cons]
    constructor
    · rintro ((h | h) | ⟨r2, hr2, hc⟩)
      · exact Or.inl h
      · exact Or.inr ⟨r, Or.inl rfl, h⟩
      · exact Or.inr ⟨r2, Or.inr hr2, hc⟩
    · rintro (h | ⟨r2, (hr2 | hr2), hc⟩)
      · exact Or.inl (Or.inl h)
      · exact Or.inl (Or.inr (hr2 ▸ hc))
      · exact Or.inr ⟨r2, hr2, hc⟩

theorem colsOf_congr :
    ∀ {rows rows2 : List Row},
      List.Forall₂ (fun r r2 => r2.map Prod.fst = r.map Prod.fst) rows rows2 →
      ∀ acc, colsOf acc rows = colsOf acc rows2 := by
  intro rows
  induction rows with
  | nil => intro rows2 h acc; cases h; rfl
  | cons r rest ih =>
    intro rows2 h acc
    cases h with
    | cons hk hr => simp only [colsOf, hk, ih hr]

/-! Lemmas about the datetime conversion loop of the normalizer. -/

theorem tdRow_spec {field : String} {r : Row}
    (h : ∀ v, assocGet field r = some v → ∃ w, toDatetimeCell v = .ok w) :
    ∃ r2, toDatetimeRow field r = .ok r2 ∧ ColRel field r r2 := by
  cases hv : assocGet field r with
  | none =>
    refine ⟨r, by simp [toDatetimeRow, hv], rfl, fun _ _ => rfl, ?_⟩
    intro s ts hs
    rw [hv] at hs
    cases hs
  | some v =>
    obtain ⟨w, hw⟩ := h v hv
    refine ⟨setField r field w, by simp [toDatetimeRow, hv, hw], ?_, ?_, ?_⟩
    · exact setField_keys_of_mem r field w
        ((assocGet_isSome_iff r field).mp (by simp [hv]))
    · intro k hk
      exact assocGet_setField_ne r field k w hk
    · intro s ts hs hts
      rw [hv] at hs
      cases hs
      have hw2 : toDatetimeCell (JVal.str s) = .ok (JVal.dt ts) := by
        simp [toDatetimeCell, hts]
      rw [hw2] at hw
      cases hw
      exact assocGet_setField_self r field (JVal.dt ts)

theorem tdCol_spec {df : DataFrame} {field : String}
    (h : ∀ r ∈ df.rows, ∀ v, assocGet field r = some v →
      ∃ w, toDatetimeCell v = .ok w) :
    ∃ df2, toDatetimeColumn df field = .ok df2 ∧
      List.Forall₂ (ColRel field) df.rows df2.rows := by
  obtain ⟨rows2, hrows2, hF⟩ :=
    @mapE_ok_of_forall Row Row (toDatetimeRow field) (ColRel field) df.rows
      (fun r hr => tdRow_spec (h r hr))
  exact ⟨⟨rows2⟩, by simp [toDatetimeColumn, hrows2], hF⟩

theorem tdRow_ok_keys {field : String} {r r2 : Row}
    (h : toDatetimeRow field r = .ok r2) : r2.map Prod.fst = r.map Prod.fst := by
  cases hv : assocGet field r with
  | none =>
    simp only [toDatetimeRow, hv] at h
    cases h
    rfl
  | some v =>
    simp only [toDatetimeRow, hv] at h
    cases hw : toDatetimeCell v with
    | error e => rw [hw] at h; cases h
    | ok w =>
      rw [hw] at h
      cases h
      exact setField_keys_of_mem r field w
        ((assocGet_isSome_iff r field).mp (by simp [hv]))

theorem tdCol_ok_keys {df df2 : DataFrame} {field : String}
    (h : toDatetimeColumn df field = .ok df2) :
    List.Forall₂ (fun r r2 => r2.map Prod.fst = r.map Prod.fst) df.rows df2.rows := by
  unfold toDatetimeColumn at h
  cases hm : mapE (toDatetimeRow field) df.rows with
  | error e => rw [hm] at h; cases h
  | ok rows2 =>
    rw [hm] at h
    cases h
    exact (mapE_ok_forall₂ hm).imp (fun _ _ h => tdRow_ok_keys h)

/-- The field loop preserves row keys whatever fields it processes. -/
theorem applyFields_ok_keys :
    ∀ (fs : List String) (df df2 : DataFrame),
      applyDatetimeFields df fs = .ok df2 →
      List.Forall₂ (fun r r2 => r2.map Prod.fst = r.map Prod.fst) df.rows df2.rows := by
  intro fs
  induction fs with
  | nil =>
    intro df df2 h
    cases h
    exact (List.forall₂_same).mpr (fun x _ => rfl)
  | cons f rest ih =>
    intro df df2 h
    simp only [applyDatetimeFields] at h
    by_cases hmem : f ∈ df.columns
    · rw [if_pos hmem] at h
      cases hc : toDatetimeColumn df f with
      | error e => rw [hc] at h; cases h
      | ok dfm =>
        rw [hc] at h
        exact forall₂_compose (fun a b c hab hbc => hbc.trans hab)
          (tdCol_ok_keys hc) (ih dfm df2 h)
    · rw [if_neg hmem] at h
      exact ih df df2 h

/-- One processed or skipped field of the loop, with its row-level effect. -/
theorem applyStep {df : DataFrame} {f : String} (rest : List String)
    (h : ∀ r ∈ df.rows, ∀ v, assocGet f r = some v →
      ∃ w, toDatetimeCell v = .ok w) :
    ∃ df2, applyDatetimeFields df (f :: rest) = applyDatetimeFields df2 rest ∧
      List.Forall₂ (fun r r2 => r2.map Prod.fst = r.map Prod.fst ∧
        ∀ k, k ≠ f → assocGet k r2 = assocGet k r) df.rows df2.rows := by
  by_cases hmem : f ∈ df.columns
  · obtain ⟨df2, hdf2, hF⟩ := tdCol_spec h
    refine ⟨df2, ?_, hF.imp (fun _ _ hr => ⟨hr.1, hr.2.1⟩)⟩
    simp only [applyDatetimeFields, if_pos hmem, hdf2]
  · refine ⟨df, ?_, (List.forall₂_same).mpr (fun x _ => ⟨rfl, fun _ _ => rfl⟩)⟩
    simp only [applyDatetimeFields, if_neg hmem]

/-- Pointwise strengthening of an elementwise relation using membership. -/
theorem forall₂_imp_mem {α β : Type} {P Q : α → β → Prop} :
    ∀ {l1 : List α} {l2 : List β}, List.Forall₂ P l1 l2 →
      (∀ x ∈ l1, ∀ y ∈ l2, P x y → Q x y) → List.Forall₂ Q l1 l2 := by
  intro l1
  induction l1 with
  | nil => intro l2 h _; cases h; exact List.Forall₂.nil
  | cons a l1 ih =>
    intro l2 h hq
    cases h with
    | cons hab hr =>
      refine List.Forall₂.cons
        (hq a (List.mem_cons_self a l1) _ (List.mem_cons_self _ _) hab) ?_
      exact ih hr (fun x hx y hy => hq x (List.mem_cons_of_mem a hx) y
        (List.mem_cons_of_mem _ hy))

/-- Central success lemma for the normalizer: on records that normalize with
an acquisition timestamp column of parseable strings present in every row,
and creation and update cells that convert where present, the call returns a
table with one row per item whose index cells are the parsed acquisition
timestamps. -/
theorem normalizer_success
    {items : List JVal} {pairs : List (JVal × JVal)} {rows : List Row}
    (h1 : mapE normLoopStep items = .ok pairs)
    (h2 : mapE normalizeRecord (pairs.map Prod.fst) = .ok rows)
    (h3 : rows ≠ [])
    (h4 : ∀ r ∈ rows, ∃ s ts, assocGet dtField r = some (.str s) ∧
      parseTimestamp s = some ts)
    (h5 : ∀ r ∈ rows, ∀ f, (f = crField ∨ f = upField) → ∀ v,
      assocGet f r = some v → ∃ w, toDatetimeCell v = .ok w) :
    ∃ gdf, items_to_geodataframe items = .ok gdf ∧
      gdf.rows.length = items.length ∧ gdf.index.length = items.length ∧
      List.Forall₂ (fun r v => ∃ s ts, assocGet dtField r = some (.str s) ∧
        parseTimestamp s = some ts ∧ v = JVal.dt ts) rows gdf.index := by
  have hne1 : crField ≠ dtField := by decide
  have hne2 : upField ≠ dtField := by decide
  -- the acquisition column converts
  obtain ⟨df1, hdf1, F1⟩ :=
    @tdCol_spec ⟨rows⟩ dtField (by
      intro r hr v hv
      obtain ⟨s, ts, hs, hts⟩ := h4 r hr
      rw [hv] at hs
      cases hs
      exact ⟨JVal.dt ts, by simp [toDatetimeCell, hts]⟩)
  have hmem1 : dtField ∈ (DataFrame.mk rows).columns := by
    obtain ⟨r0, rest0, hrw⟩ := List.exists_cons_of_ne_nil h3
    subst hrw
    obtain ⟨s, ts, hs, _⟩ := h4 r0 (List.mem_cons_self _ _)
    exact (colsOf_mem _ _ _).mpr (Or.inr ⟨r0, List.mem_cons_self _ _,
      (assocGet_isSome_iff r0 dtField).mp (by simp [hs])⟩)
  -- the creation column converts or is skipped
  obtain ⟨df2, hdf2, F2⟩ := @applyStep df1 crField [upField] (by
    intro r1 hr1 v hv
    obtain ⟨r, hr, hrel⟩ := forall₂_mem_right F1 hr1
    rw [hrel.2.1 crField hne1] at hv
    exact h5 r hr crField (Or.inl rfl) v hv)
  -- the update column converts or is skipped
  obtain ⟨df3, hdf3, F3⟩ := @applyStep df2 upField [] (by
    intro r2 hr2 v hv
    obtain ⟨r1, hr1, hrel2⟩ := forall₂_mem_right F2 hr2
    obtain ⟨r, hr, hrel1⟩ := forall₂_mem_right F1 hr1
    rw [hrel2.2 upField (by decide), hrel1.2.1 upField hne2] at hv
    exact h5 r hr upField (Or.inr rfl) v hv)
  -- composite row relation from the source rows to the fully converted rows
  have F13 : List.Forall₂ (fun r r3 => r3.map Prod.fst = r.map Prod.fst ∧
      ∀ s ts, assocGet dtField r = some (.str s) → parseTimestamp s = some ts →
        assocGet dtField r3 = some (.dt ts)) rows df3.rows := by
    have F12 : List.Forall₂ (fun r r2 => r2.map Prod.fst = r.map Prod.fst ∧
        ∀ s ts, assocGet dtField r = some (.str s) → parseTimestamp s = some ts →
          assocGet dtField r2 = some (.dt ts)) rows df2.rows := by
      refine forall₂_compose ?_ F1 F2
      intro r r1 r2 h1r h2r
      refine ⟨h2r.1.trans h1r.1, ?_⟩
      intro s ts hs hts
      rw [h2r.2 dtField (Ne.symm hne1)]
      exact h1r.2.2 s ts hs hts
    refine forall₂_compose ?_ F12 F3
    intro r r2 r3 h1r h2r
    refine ⟨h2r.1.trans h1r.1, ?_⟩
    intro s ts hs hts
    rw [h2r.2 dtField (Ne.symm hne2)]
    exact h1r.2 s ts hs hts
  -- the column set survives the loop, so set_index succeeds
  have hkeys : List.Forall₂ (fun r r3 => r3.map Prod.fst = r.map Prod.fst)
      rows df3.rows := F13.imp (fun _ _ h => h.1)
  have hcols3 : df3.columns = (DataFrame.mk rows).columns := by
    unfold DataFrame.columns
    exact (colsOf_congr hkeys []).symm
  have hmem3 : dtField ∈ df3.columns := hcols3 ▸ hmem1
  have happly : applyDatetimeFields ⟨rows⟩ tsFields = .ok df3 := by
    have : applyDatetimeFields ⟨rows⟩ tsFields
        = applyDatetimeFields df1 [crField, upField] := by
      simp only [tsFields, applyDatetimeFields, if_pos hmem1, hdf1]
    rw [this, hdf2, hdf3]
    rfl
  -- assemble the call
  have hsi : setIndex df3 dtField =
      .ok ⟨df3.rows.map (fun r => (assocGet dtField r).getD JVal.null),
           df3.rows.map (fun r => eraseKey dtField r)⟩ := by
    simp [setIndex, hmem3]
  refine ⟨⟨df3.rows.map (fun r => (assocGet dtField r).getD JVal.null),
      df3.rows.map (fun r => eraseKey dtField r)⟩, ?_, ?_, ?_, ?_⟩
  · simp only [items_to_geodataframe, items_to_geodataframe_st, h1, h2, happly, hsi]
  · have e1 : rows.length = items.length := by
      rw [mapE_ok_length h2, List.length_map, mapE_ok_length h1]
    simp only [GeoDataFrame.rows, List.length_map]
    rw [F13.length_eq.symm, e1]
  · have e1 : rows.length = items.length := by
      rw [mapE_ok_length h2, List.length_map, mapE_ok_length h1]
    simp only [GeoDataFrame.index, List.length_map]
    rw [F13.length_eq.symm, e1]
  · simp only [GeoDataFrame.index]
    have hmap : List.Forall₂ (fun r v => ∀ s ts, assocGet dtField r = some (.str s) →
        parseTimestamp s = some ts → v = JVal.dt ts) rows
        (df3.rows.map (fun r => (assocGet dtField r).getD JVal.null)) :=
      forall₂_map_right (fun r r3 hrel s ts hs hts => by
        simp only [hrel.2 s ts hs hts, Option.getD_some]) F13
    refine forall₂_imp_mem hmap ?_
    intro r hr v _ hE
    obtain ⟨s, ts, hs, hts⟩ := h4 r hr
    exact ⟨s, ts, hs, hts, hE s ts hs hts⟩

/-- Failure lemma for the normalizer: when no normalized row carries the
acquisition timestamp column, the final set_index call cannot succeed, so
the function never returns a table. -/
theorem normalizer_fails_without_dt
    {items : List JVal} {pairs : List (JVal × JVal)} {rows : List Row}
    (h1 : mapE normLoopStep items = .ok pairs)
    (h2 : mapE normalizeRecord (pairs.map Prod.fst) = .ok rows)
    (habs : ∀ r ∈ rows, assocGet dtField r = none) :
    ∀ g, items_to_geodataframe items ≠ .ok g := by
  have hnomem : ∀ (rows2 : List Row),
      List.Forall₂ (fun r r2 => r2.map Prod.fst = r.map Prod.fst) rows rows2 →
      dtField ∉ colsOf [] rows2 := by
    intro rows2 hF hmem
    rcases (colsOf_mem rows2 [] dtField).mp hmem with h | ⟨r2, hr2, hk⟩
    · cases h
    · obtain ⟨r, hr, hkeys⟩ := forall₂_mem_right hF hr2
      rw [hkeys] at hk
      have := (assocGet_isSome_iff r dtField).mpr hk
      rw [habs r hr] at this
      cases this
  have hnotmem1 : dtField ∉ (DataFrame.mk rows).columns :=
    hnomem rows ((List.forall₂_same).mpr (fun _ _ => rfl))
  intro g hok
  simp only [items_to_geodataframe, items_to_geodataframe_st, h1, h2] at hok
  have hred : applyDatetimeFields ⟨rows⟩ tsFields
      = applyDatetimeFields ⟨rows⟩ [crField, upField] := by
    simp only [tsFields, applyDatetimeFields, if_neg hnotmem1]
  rw [hred] at hok
  cases happly : applyDatetimeFields ⟨rows⟩ [crField, upField] with
  | error e => rw [happly] at hok; cases hok
  | ok df2 =>
    rw [happly] at hok
    have hkeys := applyFields_ok_keys [crField, upField] ⟨rows⟩ df2 happly
    have hnot2 : dtField ∉ df2.columns := hnomem df2.rows hkeys
    simp only [setIndex, if_neg hnot2] at hok
    cases hok

/-! Lemmas about the state-passing form: the normalizer loop leaves the
input item list unchanged, because each iteration writes to a deep copy. -/

theorem normLoopStep_snd {i : JVal} {p : JVal × JVal}
    (h : normLoopStep i = .ok p) : p.2 = i := by
  cases i with
  | obj fields =>
    cases hg : assocGet ("geometry") fields with
    | none =>
      simp only [normLoopStep, deepcopy, hg] at h
      cases h
    | some g =>
      simp only [normLoopStep, deepcopy, hg] at h
      cases hs : shape g with
      | error e => rw [hs] at h; cases h
      | ok geo => rw [hs] at h; cases h; rfl
  | null => simp only [normLoopStep, deepcopy] at h; cases h
  | bool b => simp only [normLoopStep, deepcopy] at h; cases h
  | num n => simp only [normLoopStep, deepcopy] at h; cases h
  | str s => simp only [normLoopStep, deepcopy] at h; cases h
  | dt ts => simp only [normLoopStep, deepcopy] at h; cases h
  | geom t c => simp only [normLoopStep, deepcopy] at h; cases h
  | arr l => simp only [normLoopStep, deepcopy] at h; cases h

theorem parseItems_snd {items : List JVal} {pairs : List (JVal × JVal)}
    (h : mapE normLoopStep items = .ok pairs) : pairs.map Prod.snd = items := by
  have hF := mapE_ok_forall₂ h
  clear h
  induction hF with
  | nil => rfl
  | cons hp _ ih => simp [normLoopStep_snd hp, ih]

/-! Lemmas about the solar-day grouping of the modelled cube loader: the
number of groups equals the number of distinct key values. -/

theorem addToGroups_keys (d : Int) (it : StacItem) :
    ∀ (gs : List (Int × List StacItem)),
      (addToGroups gs d it).map Prod.fst =
        if d ∈ gs.map Prod.fst then gs.map Prod.fst else gs.map Prod.fst ++ [d] := by
  intro gs
  induction gs with
  | nil => simp [addToGroups]
  | cons g rest ih =>
    by_cases hd : g.1 = d
    · simp [addToGroups, hd]
    · simp only [addToGroups, if_neg hd, List.map_cons, ih, List.mem_cons]
      by_cases hmem : d ∈ rest.map Prod.fst
      · simp [hmem, Ne.symm hd]
      · simp [hmem, Ne.symm hd]

theorem groupFold_keys (key : StacItem → Int) :
    ∀ (items : List StacItem) (gs : List (Int × List StacItem)),
      (gs.map Prod.fst).Nodup →
      ((items.foldl (fun a it => addToGroups a (key it) it) gs).map Prod.fst).Nodup ∧
      (∀ x, x ∈ (items.foldl (fun a it => addToGroups a (key it) it) gs).map Prod.fst ↔
        x ∈ gs.map Prod.fst ∨ x ∈ items.map key) := by
  intro items
  induction items with
  | nil => intro gs h; exact ⟨h, fun x => by simp⟩
  | cons it rest ih =>
    intro gs h
    have hstep : (addToGroups gs (key it) it).map Prod.fst =
        if key it ∈ gs.map Prod.fst then gs.map Prod.fst
        else gs.map Prod.fst ++ [key it] := addToGroups_keys (key it) it gs
    have hnodup2 : ((addToGroups gs (key it) it).map Prod.fst).Nodup := by
      rw [hstep]
      by_cases hmem : key it ∈ gs.map Prod.fst
      · rw [if_pos hmem]; exact h
      · rw [if_neg hmem]
        exact List.Nodup.append h (List.nodup_singleton _)
          (by simp [List.disjoint_singleton, hmem])
    obtain ⟨hn, hiff⟩ := ih (addToGroups gs (key it) it) hnodup2
    refine ⟨hn, fun x => ?_⟩
    rw [List.foldl_cons] at *
    rw [hiff x, hstep]
    by_cases hmem : key it ∈ gs.map Prod.fst
    · rw [if_pos hmem]
      simp only [List.map_cons, List.mem_cons]
      constructor
      · rintro (hx | hx)
        · exact Or.inl hx
        · exact Or.inr (Or.inr hx)
      · rintro (hx | hx | hx)
        · exact Or.inl hx
        · exact Or.inl (hx ▸ hmem)
        · exact Or.inr hx
    · rw [if_neg hmem]
      simp only [List.mem_append, List.mem_singleton, List.map_cons, List.mem_cons]
      tauto

theorem groupByKey_length (key : StacItem → Int) (items : List StacItem) :
    (groupByKey key items).length = (items.map key).dedup.length := by
  obtain ⟨hnodup, hiff⟩ := groupFold_keys key items [] List.nodup_nil
  have hkeys : (groupByKey key items).map Prod.fst
      = (items.foldl (fun a it => addToGroups a (key it) it) []).map Prod.fst := rfl
  have hlen : (groupByKey key items).length
      = ((groupByKey key items).map Prod.fst).length := (List.length_map _ _).symm
  rw [hlen, hkeys]
  have hset : ((items.foldl (fun a it => addToGroups a (key it) it) []).map Prod.fst).toFinset
      = (items.map key).toFinset := by
    ext x
    simp only [List.mem_toFinset]
    rw [hiff x]
    simp
  calc ((items.foldl (fun a it => addToGroups a (key it) it) []).map Prod.fst).length
      = ((items.foldl (fun a it => addToGroups a (key it) it) []).map Prod.fst).toFinset.card :=
        (List.toFinset_card_of_nodup hnodup).symm
    _ = (items.map key).toFinset.card := by rw [hset]
    _ = (items.map key).dedup.length := List.card_toFinset _

/-! Pointwise evaluation lemma for elementwise array operations. -/

theorem zipWith_get? {α β γ : Type} {f : α → β → γ} :
    ∀ (a : List α) (b : List β) (i : Nat) (x : α) (y : β),
      a.get? i = some x → b.get? i = some y →
      (List.zipWith f a b).get? i = some (f x y) := by
  intro a
  induction a with
  | nil => intro b i x y hx; cases i <;> cases hx
  | cons av arest ih =>
    intro b i x y hx hy
    cases b with
    | nil => cases i <;> cases hy
    | cons bv brest =>
      cases i with
      | zero =>
        cases hx; cases hy; rfl
      | succ n =>
        simpa using ih brest n x y (by simpa using hx) (by simpa using hy)

/-- The state-passing normalizer hands the item list back unchanged when it
returns a table. -/
theorem st_post {items : List JVal} {p : GeoDataFrame × List JVal}
    (h : items_to_geodataframe_st items = .ok p) : p.2 = items := by
  cases hm : mapE normLoopStep items with
  | error e => simp only [items_to_geodataframe_st, hm] at h; cases h
  | ok pairs =>
    simp only [items_to_geodataframe_st, hm] at h
    cases h2 : mapE normalizeRecord (pairs.map Prod.fst) with
    | error e => simp only [h2] at h; cases h
    | ok rows =>
      simp only [h2] at h
      cases h3 : applyDatetimeFields ⟨rows⟩ tsFields with
      | error e => simp only [h3] at h; cases h
      | ok df =>
        simp only [h3] at h
        cases h4 : setIndex df dtField with
        | error e => simp only [h4] at h; cases h
        | ok gdf =>
          simp only [h4] at h
          cases h
          exact parseItems_snd hm

/-! Claim theorems. -/

/-- Claim C1: for every non-empty sequence of well-formed raw item records
(records that deep-copy and geometry-parse, normalize to rows whose
acquisition timestamp cells are parseable strings, and whose creation and
update cells convert where present), items_to_geodataframe returns a
Footprint Table with exactly one row per input item: the row count and the
index length both equal the input length. -/
theorem c1_normalizer_row_count (items : List JVal)
    {pairs : List (JVal × JVal)} {rows : List Row}
    (h1 : mapE normLoopStep items = .ok pairs)
    (h2 : mapE normalizeRecord (pairs.map Prod.fst) = .ok rows)
    (hne : items ≠ [])
    (h4 : ∀ r ∈ rows, ∃ s ts, assocGet dtField r = some (.str s) ∧
      parseTimestamp s = some ts)
    (h5 : ∀ r ∈ rows, ∀ f, (f = crField ∨ f = upField) → ∀ v,
      assocGet f r = some v → ∃ w, toDatetimeCell v = .ok w) :
    ∃ gdf, items_to_geodataframe items = .ok gdf ∧
      gdf.rows.length = items.length ∧ gdf.index.length = items.length := by
  have hlen : rows.length = items.length := by
    rw [mapE_ok_length h2, List.length_map, mapE_ok_length h1]
  have h3 : rows ≠ [] := by
    intro hnil
    apply hne
    rw [hnil] at hlen
    exact List.eq_nil_of_length_eq_zero hlen.symm
  obtain ⟨gdf, hok, hr, hi, _⟩ := normalizer_success h1 h2 h3 h4 h5
  exact ⟨gdf, hok, hr, hi⟩

/-- Claim C1 witness: the row-count theorem applied to one concrete record. -/
theorem c1_normalizer_row_count_witness :
    ∃ gdf, items_to_geodataframe [demoItemZ] = .ok gdf ∧
      gdf.rows.length = [demoItemZ].length ∧
      gdf.index.length = [demoItemZ].length :=
  c1_normalizer_row_count [demoItemZ] rfl rfl (List.cons_ne_nil _ _)
    (by
      intro r hr
      simp only [List.mem_singleton] at hr
      subst hr
      exact ⟨_, _, rfl, rfl⟩)
    (by
      intro r hr f hf v hv
      simp only [List.mem_singleton] at hr
      subst hr
      rcases hf with rfl | rfl
      · cases (show (none : Option JVal) = some v from hv)
      · cases (show (none : Option JVal) = some v from hv))

/-- Claim C2 counterexample: on the empty item list the normalizer does not
return a table at all; the set_index call on the absent acquisition column
raises. -/
theorem c2_empty_counterexample :
    exceptIsOk (items_to_geodataframe ([] : List JVal)) = false := rfl

/-- Claim C2 amended: applied to an empty list, items_to_geodataframe raises
a KeyError for the absent properties.datetime column instead of returning a
zero-row Footprint Table. -/
theorem c2_empty_amended :
    items_to_geodataframe ([] : List JVal)
      = .error ("KeyError: properties.datetime") := rfl

/-- Claim C4 counterexample: the asset href rewrite loop changes the href
stored in the input record, so the post-loop state of the item list differs
from the input: the source records are mutated in place. -/
theorem c4_mutation_counterexample :
    postRewriteHref [c4item] ("red") = some ("s3://usgs-landsat/data/x.tif") ∧
    itemAssetHrefStr c4item ("red") = some ("https://landsatlook.usgs.gov/data/x.tif") ∧
    (some ("s3://usgs-landsat/data/x.tif") : Option String)
      ≠ some ("https://landsatlook.usgs.gov/data/x.tif") :=
  ⟨rfl, rfl, by decide⟩

/-- Claim C4 amended: the Item Normalizer leaves every input record
unchanged (the loop writes only to deep copies), but the asset href rewrite
loop mutates the records in place, as the changed href of a concrete input
record shows. -/
theorem c4_frame_amended :
    (∀ items, items_to_geodataframe_post items = items) ∧
    ((postRewriteHref [c4item] ("red")).isSome = true ∧
      postRewriteHref [c4item] ("red") ≠ itemAssetHrefStr c4item ("red")) := by
  constructor
  · intro items
    cases hst : items_to_geodataframe_st items with
    | error e => simp [items_to_geodataframe_post, hst]
    | ok p =>
      simp only [items_to_geodataframe_post, hst]
      exact st_post hst
  · exact ⟨rfl, by decide⟩

/-- Claim C5 counterexample: a non-empty item set lacking the acquisition
timestamp column is not handled by a silent skip; the normalizer raises from
set_index instead of returning a table. -/
theorem c5_absent_dt_counterexample :
    exceptIsOk (items_to_geodataframe [demoItemNoDt]) = false := rfl

/-- Claim C5 amended: an absent creation or update timestamp column is
silently skipped and a table is returned, but an absent acquisition
timestamp column makes the normalizer raise at set_index, so no table is
returned in that case. -/
theorem c5_absent_column_amended :
    (∀ (items : List JVal) (pairs : List (JVal × JVal)) (rows : List Row),
      mapE normLoopStep items = .ok pairs →
      mapE normalizeRecord (pairs.map Prod.fst) = .ok rows →
      items ≠ [] →
      (∀ r ∈ rows, ∃ s ts, assocGet dtField r = some (.str s) ∧
        parseTimestamp s = some ts) →
      (∀ r ∈ rows, assocGet crField r = none ∧ assocGet upField r = none) →
      ∃ gdf, items_to_geodataframe items = .ok gdf) ∧
    (∀ (items : List JVal) (pairs : List (JVal × JVal)) (rows : List Row),
      mapE normLoopStep items = .ok pairs →
      mapE normalizeRecord (pairs.map Prod.fst) = .ok rows →
      (∀ r ∈ rows, assocGet dtField r = none) →
      ∀ g, items_to_geodataframe items ≠ .ok g) := by
  constructor
  · intro items pairs rows h1 h2 hne h4 habs
    have hlen : rows.length = items.length := by
      rw [mapE_ok_length h2, List.length_map, mapE_ok_length h1]
    have h3 : rows ≠ [] := by
      intro hnil
      apply hne
      rw [hnil] at hlen
      exact List.eq_nil_of_length_eq_zero hlen.symm
    have h5 : ∀ r ∈ rows, ∀ f, (f = crField ∨ f = upField) → ∀ v,
        assocGet f r = some v → ∃ w, toDatetimeCell v = .ok w := by
      intro r hr f hf v hv
      rcases hf with rfl | rfl
      · rw [(habs r hr).1] at hv; cases hv
      · rw [(habs r hr).2] at hv; cases hv
    obtain ⟨gdf, hok, _, _, _⟩ := normalizer_success h1 h2 h3 h4 h5
    exact ⟨gdf, hok⟩
  · intro items pairs rows h1 h2 habs
    exact normalizer_fails_without_dt h1 h2 habs

/-- Claim C5 witness: the amended dichotomy applied to concrete records, one
lacking the creation and update columns, one lacking the acquisition
column. -/
theorem c5_absent_column_amended_witness :
    (∃ gdf, items_to_geodataframe [demoItemZ] = .ok gdf) ∧
    (∀ g, items_to_geodataframe [demoItemNoDt] ≠ .ok g) :=
  ⟨c5_absent_column_amended.1 [demoItemZ] _ _ rfl rfl (List.cons_ne_nil _ _)
    (by
      intro r hr
      simp only [List.mem_singleton] at hr
      subst hr
      exact ⟨_, _, rfl, rfl⟩)
    (by
      intro r hr
      simp only [List.mem_singleton] at hr
      subst hr
      exact ⟨rfl, rfl⟩),
   c5_absent_column_amended.2 [demoItemNoDt] _ _ rfl rfl
    (by
      intro r hr
      simp only [List.mem_singleton] at hr
      subst hr
      rfl)⟩

/-- Claim C6 counterexample: a record whose acquisition time string is
parseable but carries no timezone designator yields a Footprint Table whose
index entry is a naive timestamp, so the index is not strictly composed of
timezone-aware timestamps. -/
theorem c6_naive_counterexample :
    (parseTimestamp ("2022-01-01")).isSome = true ∧
    exceptIsOk (items_to_geodataframe [demoItemNaive]) = true ∧
    indexAllTzAware (items_to_geodataframe [demoItemNaive]) = false :=
  ⟨rfl, rfl, rfl⟩

/-- Claim C6 amended: when every record carries an acquisition time string
that parses with a timezone designator (as the catalog records do), every
index entry of the returned Footprint Table is the timezone-aware timestamp
parsed from that record. -/
theorem c6_tz_index_amended (items : List JVal)
    {pairs : List (JVal × JVal)} {rows : List Row}
    (h1 : mapE normLoopStep items = .ok pairs)
    (h2 : mapE normalizeRecord (pairs.map Prod.fst) = .ok rows)
    (hne : items ≠ [])
    (h4tz : ∀ r ∈ rows, ∃ s ts, assocGet dtField r = some (.str s) ∧
      parseTimestamp s = some ts ∧ ts.tzOffsetMinutes.isSome = true)
    (h5 : ∀ r ∈ rows, ∀ f, (f = crField ∨ f = upField) → ∀ v,
      assocGet f r = some v → ∃ w, toDatetimeCell v = .ok w) :
    ∃ gdf, items_to_geodataframe items = .ok gdf ∧
      ∀ v ∈ gdf.index, ∃ ts, v = JVal.dt ts ∧ ts.tzOffsetMinutes.isSome = true := by
  have h4 : ∀ r ∈ rows, ∃ s ts, assocGet dtField r = some (.str s) ∧
      parseTimestamp s = some ts := by
    intro r hr
    obtain ⟨s, ts, hs, hts, _⟩ := h4tz r hr
    exact ⟨s, ts, hs, hts⟩
  have hlen : rows.length = items.length := by
    rw [mapE_ok_length h2, List.length_map, mapE_ok_length h1]
  have h3 : rows ≠ [] := by
    intro hnil
    apply hne
    rw [hnil] at hlen
    exact List.eq_nil_of_length_eq_zero hlen.symm
  obtain ⟨gdf, hok, _, _, hF⟩ := normalizer_success h1 h2 h3 h4 h5
  refine ⟨gdf, hok, ?_⟩
  intro v hv
  obtain ⟨r, hr, s, ts, hs, hts, hvts⟩ := forall₂_mem_right hF hv
  obtain ⟨s2, ts2, hs2, hts2, htz⟩ := h4tz r hr
  rw [hs] at hs2
  cases hs2
  rw [hts] at hts2
  cases hts2
  exact ⟨ts, hvts, htz⟩

/-- Claim C6 witness: the amended index theorem applied to one concrete
record carrying a UTC acquisition timestamp. -/
theorem c6_tz_index_amended_witness :
    ∃ gdf, items_to_geodataframe [demoItemZ] = .ok gdf ∧
      ∀ v ∈ gdf.index, ∃ ts, v = JVal.dt ts ∧ ts.tzOffsetMinutes.isSome = true :=
  c6_tz_index_amended [demoItemZ] rfl rfl (List.cons_ne_nil _ _)
    (by
      intro r hr
      simp only [List.mem_singleton] at hr
      subst hr
      exact ⟨_, _, rfl, rfl, rfl⟩)
    (by
      intro r hr f hf v hv
      simp only [List.mem_singleton] at hr
      subst hr
      rcases hf with rfl | rfl
      · cases (show (none : Option JVal) = some v from hv)
      · cases (show (none : Option JVal) = some v from hv))

/-- Claim C3 counterexample: the bands are uint16 arrays, so at a pixel
where both bands hold 32768 the wrapped sum is zero and the wrapped
difference is zero; the program divides zero by zero and the ndvi value is
nan although neither band is zero, refuting the claimed both-bands-zero
characterization of nan. -/
theorem c3_wraparound_counterexample :
    (ndvi [32768] [32768]).get? 0 = some FP.nan ∧ (32768 : Nat) ≠ 0 :=
  ⟨rfl, by decide⟩

/-- Claim C3 amended: over uint16 band cells the ndvi value exists at every
pixel and the zero-division case yields nan or a clipped infinity rather
than raising; the value lies in the unit range whenever the wrapped
denominator is nonzero; and the value is nan exactly where the wrapped
numerator and denominator are both zero, which happens when both bands are
zero and also, by uint16 wraparound, when both bands are 32768. -/
theorem c3_ratio_index_u16 (nir red : List Nat) (i : Nat) (a b : Nat)
    (ha : nir.get? i = some a) (hb : red.get? i = some b)
    (ha16 : a < 65536) (hb16 : b < 65536) :
    ∃ r, (ndvi nir red).get? i = some r ∧
      (u16add a b ≠ 0 → ∃ q, r = FP.val q ∧ 0 ≤ q ∧ q ≤ 1) ∧
      (r = FP.nan ↔ ((a = 0 ∧ b = 0) ∨ (a = 32768 ∧ b = 32768))) := by
  have hsub := @zipWith_get? Nat Nat Nat u16sub nir red i _ _ ha hb
  have hadd := @zipWith_get? Nat Nat Nat u16add nir red i _ _ ha hb
  have hdiv := @zipWith_get? Nat Nat FP natFdiv _ _ i _ _ hsub hadd
  have hmain : (ndvi nir red).get? i
      = some (FP.clip 0 1 (natFdiv (u16sub a b) (u16add a b))) := by
    unfold ndvi
    rw [List.get?_map, hdiv]
    rfl
  by_cases hden : u16add a b = 0
  · by_cases hnum : u16sub a b = 0
    · refine ⟨FP.nan, ?_, ?_, ?_⟩
      · rw [hmain]
        simp [natFdiv, FP.clip, hden, hnum]
      · intro h; exact absurd hden h
      · constructor
        · intro _
          simp only [u16add, u16sub] at hden hnum
          omega
        · intro _; rfl
    · refine ⟨FP.val 1, ?_, ?_, ?_⟩
      · rw [hmain]
        simp [natFdiv, FP.clip, hden, hnum]
      · intro h; exact absurd hden h
      · constructor
        · intro h; cases h
        · rintro (⟨rfl, rfl⟩ | ⟨rfl, rfl⟩)
          · exact absurd (by decide) hnum
          · exact absurd (by decide) hnum
  · refine ⟨FP.val (min 1 (max 0 ((u16sub a b : ℚ) / (u16add a b : ℚ)))), ?_, ?_, ?_⟩
    · rw [hmain]
      simp [natFdiv, FP.clip, hden]
    · intro _
      exact ⟨min 1 (max 0 ((u16sub a b : ℚ) / (u16add a b : ℚ))), rfl,
        le_min (by norm_num) (le_max_left 0 _), min_le_left 1 _⟩
    · constructor
      · intro h; cases h
      · rintro (⟨rfl, rfl⟩ | ⟨rfl, rfl⟩)
        · exact absurd (by decide) hden
        · exact absurd (by decide) hden

/-- Claim C3 witness: the amended pixelwise theorem applied to a concrete
pair of uint16 band values. -/
theorem c3_ratio_index_u16_witness :
    ∃ r, (ndvi [2] [1]).get? 0 = some r ∧
      (u16add 2 1 ≠ 0 → ∃ q, r = FP.val q ∧ 0 ≤ q ∧ q ≤ 1) ∧
      (r = FP.nan ↔ (((2 : Nat) = 0 ∧ (1 : Nat) = 0) ∨
        ((2 : Nat) = 32768 ∧ (1 : Nat) = 32768))) :=
  c3_ratio_index_u16 [2] [1] 0 2 1 rfl rfl (by decide) (by decide)

/-- Claim C7: with solar-day grouping enabled, loading three items whose
acquisition times span exactly two local solar calendar days produces a cube
whose time axis has exactly two slices. The loader is modelled from the
spec, its implementation living in the external odc-stac library. -/
theorem c7_solar_day_slices (items : List StacItem) (bands : List String)
    (cube : VirtualCube) (_hlen : items.length = 3)
    (hdays : ((items.map solarDay).dedup).length = 2)
    (hok : stac_load items bands true = .ok cube) :
    cube.timeGroups.length = 2 := by
  cases hempty : items.isEmpty with
  | true => simp [stac_load, hempty] at hok
  | false =>
    simp only [stac_load, hempty, Bool.false_eq_true, if_false] at hok
    cases hfind : bands.find? (fun b => !(resolvable items b)) with
    | some b =>
      simp only [hfind] at hok
      cases hok
    | none =>
      simp only [hfind] at hok
      cases hok
      simp only [if_true]
      rw [groupByKey_length]
      exact hdays

/-- Claim C7 witness: the slice-count theorem applied to three concrete
acquisitions spanning two solar days. -/
theorem c7_solar_day_slices_witness :
    (VirtualCube.mk ["red"] [(0, [demoIt1, demoIt2]), (1, [demoIt3])]).timeGroups.length = 2 :=
  c7_solar_day_slices [demoIt1, demoIt2, demoIt3] ["red"] _ rfl (by decide) rfl

/-- Claim C8: the modelled Virtual Cube Loader fails fast with a descriptive
error, before any materialization, on an empty item set and on a band name
that no item asset mapping resolves; the returned message names the
offending band. The loader is modelled from the spec, its implementation
living in the external odc-stac library. -/
theorem c8_fail_fast (items : List StacItem) (bands : List String) (g : Bool) :
    (items = [] → stac_load items bands g = .error ("stac_load: empty item collection")) ∧
    (∀ b, b ∈ bands → (∀ it ∈ items, assocGet b it.assets = none) → items ≠ [] →
      ∃ b2, b2 ∈ bands ∧ (∀ it ∈ items, assocGet b2 it.assets = none) ∧
        stac_load items bands g
          = .error ("stac_load: band " ++ b2 ++ " not found in any item assets")) := by
  constructor
  · rintro rfl
    rfl
  · intro b hb hmiss hne
    have hempty : items.isEmpty = false := by
      cases items with
      | nil => exact absurd rfl hne
      | cons x xs => rfl
    have hpb : (!(resolvable items b)) = true := by
      have hres : resolvable items b = false := by
        unfold resolvable
        rw [List.any_eq_false]
        intro it hit
        rw [hmiss it hit]
        simp
      rw [hres]
      rfl
    have hsome : (bands.find? (fun b2 => !(resolvable items b2))).isSome := by
      rw [List.find?_isSome]
      exact ⟨b, hb, hpb⟩
    obtain ⟨b2, hfind⟩ := Option.isSome_iff_exists.mp hsome
    have hb2mem : b2 ∈ bands := List.mem_of_find?_eq_some hfind
    have hb2p : (!(resolvable items b2)) = true := by
      have hx := List.find?_some hfind
      simpa using hx
    have hmiss2 : ∀ it ∈ items, assocGet b2 it.assets = none := by
      have hres : resolvable items b2 = false := by
        cases hres2 : resolvable items b2 with
        | false => rfl
        | true => rw [hres2] at hb2p; cases hb2p
      unfold resolvable at hres
      rw [List.any_eq_false] at hres
      intro it hit
      have hx := hres it hit
      simpa using hx
    refine ⟨b2, hb2mem, hmiss2, ?_⟩
    simp [stac_load, hempty, hfind]

/-- Claim C8 witness: both failure modes evaluated on concrete inputs. -/
theorem c8_fail_fast_witness :
    stac_load ([] : List StacItem) ["red"] true
      = .error ("stac_load: empty item collection") ∧
    ∃ b2, b2 ∈ ["nope"] ∧ (∀ it ∈ [demoIt1], assocGet b2 it.assets = none) ∧
      stac_load [demoIt1] ["nope"] true
        = .error ("stac_load: band " ++ b2 ++ " not found in any item assets") :=
  ⟨(c8_fail_fast [] ["red"] true).1 rfl,
   (c8_fail_fast [demoIt1] ["nope"] true).2 ("nope") (by decide)
     (by
       intro it hit
       simp only [List.mem_singleton] at hit
       subst hit
       rfl)
     (List.cons_ne_nil _ _)⟩

/-- Claim C9: constructing a Virtual Cube performs no network access: the
interposed URL access log is unchanged by construction, and grows exactly by
the referenced chunk URLs only when the Execution Trigger materializes the
cube. The loader is modelled from the spec, its implementation living in the
external odc-stac library. -/
theorem c9_lazy_construction (items : List StacItem) (bands : List String)
    (g : Bool) (t : NetTrace) :
    ((stac_load_traced items bands g t).2.accessed = t.accessed) ∧
    (∀ cube, stac_load items bands g = .ok cube →
      (materializeCube cube t).2.accessed = t.accessed ++ cube.tileRefs) ∧
    (∀ cube, stac_load items bands g = .ok cube → cube.tileRefs ≠ [] →
      (materializeCube cube t).2.accessed ≠ t.accessed) := by
  refine ⟨rfl, fun cube _ => rfl, fun cube _ href hacc => ?_⟩
  have hacc2 : t.accessed ++ cube.tileRefs = t.accessed := hacc
  have hlen := congrArg List.length hacc2
  rw [List.length_append] at hlen
  have hlen0 : cube.tileRefs.length = 0 := by omega
  exact href (List.eq_nil_of_length_eq_zero hlen0)

/-- Claim C9 witness: the laziness theorem applied to a concrete load whose
cube references one remote chunk. -/
theorem c9_lazy_construction_witness :
    ((stac_load_traced [demoIt1] ["red"] true ⟨[]⟩).2.accessed = ([] : List String)) ∧
    ((materializeCube ⟨["red"], [(0, [demoIt1])]⟩ ⟨[]⟩).2.accessed
      = [] ++ (VirtualCube.mk ["red"] [(0, [demoIt1])]).tileRefs) ∧
    ((materializeCube ⟨["red"], [(0, [demoIt1])]⟩ ⟨[]⟩).2.accessed ≠ ([] : List String)) :=
  ⟨(c9_lazy_construction [demoIt1] ["red"] true ⟨[]⟩).1,
   (c9_lazy_construction [demoIt1] ["red"] true ⟨[]⟩).2.1 _ rfl,
   (c9_lazy_construction [demoIt1] ["red"] true ⟨[]⟩).2.2 _ rfl (by decide)⟩

/-- Claim C10: for every asset descriptor, the rewrite loop body sets the
href to the s3 alternate href when an s3 alternate entry is present and
keeps the original href otherwise; in both cases every occurrence of
usgs-landsat-ard in the resulting href is replaced by usgs-landsat, and no
field other than href changes. -/
theorem c10_asset_rewrite (fields : Row) :
    (∀ altFields s3Fields s3h,
      assocGet ("alternate") fields = some (.obj altFields) →
      assocGet ("s3") altFields = some (.obj s3Fields) →
      assocGet ("href") s3Fields = some (.str s3h) →
      rewriteAsset (.obj fields) = .ok (.obj (setField fields ("href")
        (.str (strReplace s3h ("usgs-landsat-ard") ("usgs-landsat"))))) ∧
      ∀ k, k ≠ "href" → assocGet k (setField fields ("href")
        (.str (strReplace s3h ("usgs-landsat-ard") ("usgs-landsat"))))
          = assocGet k fields) ∧
    (∀ h, assocGet ("href") fields = some (.str h) →
      (assocGet ("alternate") fields = none ∨
        ∃ altFields, assocGet ("alternate") fields = some (.obj altFields) ∧
          assocGet ("s3") altFields = none) →
      rewriteAsset (.obj fields) = .ok (.obj (setField fields ("href")
        (.str (strReplace h ("usgs-landsat-ard") ("usgs-landsat"))))) ∧
      ∀ k, k ≠ "href" → assocGet k (setField fields ("href")
        (.str (strReplace h ("usgs-landsat-ard") ("usgs-landsat"))))
          = assocGet k fields) := by
  constructor
  · intro altFields s3Fields s3h halt hs3 hhref
    have hmem : ("s3" : String) ∈ altFields.map Prod.fst :=
      (assocGet_isSome_iff altFields ("s3")).mp (by simp [hs3])
    have hstep1 : rewriteAlt fields = .ok (setField fields ("href") (.str s3h)) := by
      simp only [rewriteAlt, halt, pyContains, decide_eq_true hmem, hs3, hhref]
    constructor
    · simp only [rewriteAsset, hstep1,
        assocGet_setField_self fields ("href") (JVal.str s3h), setField_setField]
    · intro k hk
      exact assocGet_setField_ne fields ("href") k _ hk
  · intro h hhref halt
    have hstep1 : rewriteAlt fields = .ok fields := by
      rcases halt with halt | ⟨altFields, halt, hs3⟩
      · simp only [rewriteAlt, halt]
      · have hnomem : ("s3" : String) ∉ altFields.map Prod.fst := by
          intro hmem
          have := (assocGet_isSome_iff altFields ("s3")).mpr hmem
          rw [hs3] at this
          cases this
        simp only [rewriteAlt, halt, pyContains, decide_eq_false hnomem]
    constructor
    · simp only [rewriteAsset, hstep1, hhref]
    · intro k hk
      exact assocGet_setField_ne fields ("href") k _ hk

/-- Claim C10 witness: the rewrite characterization applied to one asset
with an s3 alternate and one asset without. -/
theorem c10_asset_rewrite_witness :
    rewriteAsset (.obj assetAFields) = .ok (.obj (setField assetAFields ("href")
      (.str (strReplace ("s3://usgs-landsat-ard/x") ("usgs-landsat-ard") ("usgs-landsat"))))) ∧
    rewriteAsset (.obj assetBFields) = .ok (.obj (setField assetBFields ("href")
      (.str (strReplace ("https://usgs-landsat-ard/t.jpg") ("usgs-landsat-ard") ("usgs-landsat"))))) :=
  ⟨((c10_asset_rewrite assetAFields).1 _ _ _ rfl rfl rfl).1,
   ((c10_asset_rewrite assetBFields).2 ("https://usgs-landsat-ard/t.jpg") rfl (Or.inl rfl)).1⟩

end GeoNb
